import Mathlib

/-!
Verification of the Genomic Family Concordance & Lineage Classification
Engine: a shallow embedding of `src/genome-dashboard/src/utils/analysis.ts`
and `src/genome-dashboard/src/utils/haplogroup.ts`, with theorems settling
the behavioural claims about the four analyses (Mendelian consistency,
mitochondrial concordance, sibling allele sharing, haplogroup
classification).

Numeric JS values that can be fractional (the sibling shared-allele sum and
the haplogroup percentages) are modelled as rationals; all values arising
here are small multiples of 1/2 or exact quotients, so rational arithmetic
matches the JS doubles exactly on the behaviours under study.
-/

namespace Genome

/-- The record type of the engine, embedded from the staged parser source:
`export interface GenotypeEntry` in the `genomeParser` module (staged in
`src/genome-dashboard/src/App.tsx` after the document separator), fields in
the interface\x27s order — `rsid`, `chromosome`, `position`, `father`,
`son1`, `son2`, `mother`.  `position` is produced by `parseInt(_, 10)` on a
genomic coordinate, modelled as `Nat`; genotype strings are `parseGenomeData`
outputs where the no-call tokens `--`/`__` are cleaned to the empty
string (the record type itself admits any strings, and the analyses are
defined on all of them). -/
structure GenotypeEntry where
  rsid : String
  chromosome : String
  position : Nat
  father : String
  son1 : String
  son2 : String
  mother : String
deriving DecidableEq

/-! ## JS primitives used by the source -/

/-- JS whitespace accepted by `parseInt` before the numeral (the forms that
matter for chromosome labels). -/
def jsWhitespace (c : Char) : Bool :=
  c == ' ' || c == '\t' || c == '\n' || c == '\r'

def dropLeadingWs : List Char → List Char
  | [] => []
  | c :: t => if jsWhitespace c then dropLeadingWs t else c :: t

def dropSign : List Char → List Char
  | [] => []
  | c :: t => if c == '+' || c == '-' then t else c :: t

/-- Hexadecimal digit test (`0-9a-fA-F`), as `parseInt` uses after a `0x`
prefix. -/
def isHexDigitChar (c : Char) : Bool :=
  c.isDigit || ('a' ≤ c && c ≤ 'f') || ('A' ≤ c && c ≤ 'F')

/-- Models `!isNaN(parseInt(s))` with the radix argument unspecified:
after optional whitespace and an optional single sign, `parseInt` consumes a
`0x`/`0X` hexadecimal prefix (then needs one hex digit) or at least one
decimal digit; trailing non-digit characters are ignored. The parse is NaN
exactly when no digit is consumed. -/
def jsParseIntDefined (s : String) : Bool :=
  match dropSign (dropLeadingWs s.data) with
  | '0' :: c :: rest =>
      if c == 'x' || c == 'X' then
        match rest with
        | d :: _ => isHexDigitChar d
        | [] => false
      else true
  | c :: _ => c.isDigit
  | [] => false

/-- The autosomal chromosome filter shared verbatim by
`analyzeMendelianConsistency` and `analyzeSiblingSharing`:
`!['X','Y','MT'].includes(e.chromosome) && !isNaN(parseInt(e.chromosome))`. -/
def autosomalChrom (s : String) : Bool :=
  !(["X", "Y", "MT"].contains s) && jsParseIntDefined s

/-! ## Mendelian consistency checker (`analyzeMendelianConsistency`) -/

structure MendelianResult where
  totalSNPs : Nat
  consistent : Nat
  inconsistent : Nat
  inconsistentEntries : List GenotypeEntry
deriving DecidableEq

/-- `isConsistent(father, mother, child)`: the child's first allele from one
parent and second allele from the other, in either assignment. JS reads
`child[0]`/`child[1]`; with fewer than two characters the undefined allele
matches nothing and the predicate is false. -/
def isConsistent (father mother child : String) : Bool :=
  match child.data with
  | c0 :: c1 :: _ =>
      (father.data.contains c0 && mother.data.contains c1) ||
      (mother.data.contains c0 && father.data.contains c1)
  | _ => false

/-- The body of the `for` loop of `analyzeMendelianConsistency`, acting on
the accumulator (consistent, inconsistent, inconsistentEntries). -/
def mendelStep (acc : Nat × Nat × List GenotypeEntry) (e : GenotypeEntry) :
    Nat × Nat × List GenotypeEntry :=
  if e.father.length == 0 || e.mother.length == 0 || e.son1.length == 0 ||
      e.son2.length == 0 then acc
  else if e.father.length != 2 || e.mother.length != 2 || e.son1.length != 2 ||
      e.son2.length != 2 then acc
  else if !isConsistent e.father e.mother e.son1 then
    (acc.1, acc.2.1 + 1, acc.2.2 ++ [e])
  else if !isConsistent e.father e.mother e.son2 then
    (acc.1, acc.2.1 + 1, acc.2.2 ++ [e])
  else (acc.1 + 1, acc.2.1, acc.2.2)

def analyzeMendelianConsistency (entries : List GenotypeEntry) : MendelianResult :=
  let autosomal := entries.filter fun e => autosomalChrom e.chromosome
  let r := autosomal.foldl mendelStep (0, 0, [])
  { totalSNPs := r.1 + r.2.1
    consistent := r.1
    inconsistent := r.2.1
    inconsistentEntries := r.2.2 }

/-! ## Mitochondrial concordance checker (`analyzeMitochondrial`) -/

structure MitochondrialResult where
  total : Nat
  /-- Source field name `matches` (a Lean keyword, so renamed here). -/
  matchCount : Nat
  mismatches : Nat
  mismatchedEntries : List GenotypeEntry
deriving DecidableEq

/-- The body of the `for` loop of `analyzeMitochondrial` (the source checks
emptiness twice — truthiness and `length === 0` — both kept). -/
def mtStep (acc : Nat × Nat × List GenotypeEntry) (e : GenotypeEntry) :
    Nat × Nat × List GenotypeEntry :=
  if e.mother.length == 0 || e.son1.length == 0 || e.son2.length == 0 then acc
  else if e.mother.length == 0 || e.son1.length == 0 || e.son2.length == 0 then acc
  else if e.mother == e.son1 && e.mother == e.son2 then
    (acc.1 + 1, acc.2.1, acc.2.2)
  else (acc.1, acc.2.1 + 1, acc.2.2 ++ [e])

def analyzeMitochondrial (entries : List GenotypeEntry) : MitochondrialResult :=
  let mtEntries := entries.filter fun e => e.chromosome == "MT"
  let r := mtEntries.foldl mtStep (0, 0, [])
  { total := r.1 + r.2.1
    matchCount := r.1
    mismatches := r.2.1
    mismatchedEntries := r.2.2 }

/-! ## Sibling sharing estimator (`analyzeSiblingSharing`) -/

structure SiblingComparison where
  totalSNPs : Nat
  /-- Source field name `matches` (a Lean keyword, so renamed here): the
  accumulated shared-allele sum. -/
  matchSum : ℚ
  matchPercentage : ℚ
deriving DecidableEq

/-- Insertion of a character into a sorted character list, for the model of
JS `Array.prototype.sort()` on allele characters. -/
def insertSorted (c : Char) : List Char → List Char
  | [] => [c]
  | d :: ds => if c ≤ d then c :: d :: ds else d :: insertSorted c ds

/-- JS `split('').sort()` on a genotype string: sort the characters by code
unit. -/
def sortChars : List Char → List Char
  | [] => []
  | c :: cs => insertSorted c (sortChars cs)

/-- `indexOf` + `splice` on the copied son2 allele list: consume at most one
allele equal to `c`, reporting whether one was consumed and the remainder. -/
def consumeFirst (s2 : List Char) (c : Char) : Nat × List Char :=
  if s2.contains c then (1, s2.erase c) else (0, s2)

/-- The consumption loop of `analyzeSiblingSharing` on the two sorted allele
lists: son1\x27s first allele consumes at most one equal allele of son2, the
second allele is then looked up in the remainder.  (The source indexes
`s1[0]`/`s1[1]`; a missing allele — JS `undefined` — matches nothing.) -/
def sharedOfSorted : List Char → List Char → Nat
  | c0 :: c1 :: _, s2 =>
      (consumeFirst s2 c0).1 + (if (consumeFirst s2 c0).2.contains c1 then 1 else 0)
  | [c0], s2 => (consumeFirst s2 c0).1
  | [], _ => 0

/-- The per-record IBS count of `analyzeSiblingSharing`: sort both allele
lists, then run the multiset-consumption match. -/
def sharedAlleles (son1 son2 : String) : Nat :=
  sharedOfSorted (sortChars son1.data) (sortChars son2.data)

/-- The combined skip condition of `analyzeMendelianConsistency`\x27s loop:
any genotype empty, or any genotype not exactly two characters. -/
def mendelSkip (e : GenotypeEntry) : Bool :=
  (e.father.length == 0 || e.mother.length == 0 || e.son1.length == 0 ||
    e.son2.length == 0) ||
  (e.father.length != 2 || e.mother.length != 2 || e.son1.length != 2 ||
    e.son2.length != 2)

/-- Replacing the father genotype of a record (everything else kept); used to
state that the mitochondrial counts never consult the father field. -/
def setFather (f : GenotypeEntry → String) (e : GenotypeEntry) : GenotypeEntry :=
  { e with father := f e }

/-- Swapping the two siblings\x27 genotypes; used for the symmetry claim. -/
def swapSons (e : GenotypeEntry) : GenotypeEntry :=
  { e with son1 := e.son2, son2 := e.son1 }

/-- The skip condition of the sibling loop:
`!son1 || !son2 || son1.length !== 2 || son2.length !== 2`. -/
def sibSkip (e : GenotypeEntry) : Bool :=
  e.son1.length == 0 || e.son2.length == 0 ||
  e.son1.length != 2 || e.son2.length != 2

/-- The body of the `for` loop of `analyzeSiblingSharing`, on the
accumulator (matches, total). -/
def sibStep (acc : ℚ × Nat) (e : GenotypeEntry) : ℚ × Nat :=
  if sibSkip e then acc
  else (acc.1 + (sharedAlleles e.son1 e.son2 : ℚ) / 2, acc.2 + 1)

def analyzeSiblingSharing (entries : List GenotypeEntry) : SiblingComparison :=
  let autosomal := entries.filter fun e => autosomalChrom e.chromosome
  let r := autosomal.foldl sibStep (0, 0)
  { totalSNPs := r.2
    matchSum := r.1
    matchPercentage := if r.2 > 0 then r.1 / (r.2 : ℚ) * 100 else 0 }

/-! ## Haplogroup classifier (`haplogroup.ts`) -/

structure Marker where
  position : Nat
  allele : String
  weight : Nat
deriving DecidableEq

/-- A marker with the helper `m`'s default weight 1, as every entry of the
rule table uses. -/
def mm (pos : Nat) (allele : String) : Marker := ⟨pos, allele, 1⟩

structure HaplogroupRule where
  haplogroup : String
  markers : List Marker
  description : String
deriving DecidableEq

/-- The `mtRules` table, transcribed from `haplogroup.ts`. -/
def mtRules : List HaplogroupRule := [
  ⟨"H", [mm 7028 "C", mm 2706 "A"],
    "The most common maternal lineage in Europe."⟩,
  ⟨"H7", [mm 7028 "C", mm 2706 "A", mm 4793 "G"],
    "Found across Europe, with peaks in the Near East and Basque country."⟩,
  ⟨"H7a", [mm 7028 "C", mm 2706 "A", mm 4793 "G", mm 1719 "A"],
    "A specific subclade of H7."⟩,
  ⟨"H7a1", [mm 7028 "C", mm 2706 "A", mm 4793 "G", mm 1719 "A", mm 16261 "T"],
    "Your Father\x27s probable lineage."⟩,
  ⟨"H11", [mm 7028 "C", mm 2706 "A", mm 8448 "C", mm 13759 "A"],
    "An ancient European lineage, common in Central/Eastern Europe."⟩,
  ⟨"H11a", [mm 7028 "C", mm 2706 "A", mm 8448 "C", mm 13759 "A", mm 961 "G",
      mm 16293 "G"],
    "Widespread in Central and Eastern Europe."⟩,
  ⟨"H11a2", [mm 7028 "C", mm 2706 "A", mm 8448 "C", mm 13759 "A", mm 961 "G",
      mm 16293 "G", mm 14587 "G"],
    "Specific branch of H11a."⟩,
  ⟨"H11a2a2", [mm 8448 "C", mm 13759 "A", mm 16293 "G", mm 14587 "G",
      mm 16140 "C", mm 5585 "A", mm 15670 "C"],
    "Your Mother\x27s probable lineage (Central/Eastern European)."⟩,
  ⟨"M", [mm 10400 "T", mm 14783 "C"], "Major Asian haplogroup."⟩,
  ⟨"A", [mm 663 "G", mm 1736 "A"], "Found in Indigenous Americas and Asia."⟩,
  ⟨"B", [mm 8281 "d", mm 8282 "d", mm 8283 "d"],
    "Found in Indigenous Americas and Asia (9bp deletion)."⟩]

structure HaploDetails where
  matchCount : Nat
  totalmarkers : Nat
  percentage : ℚ
  description : String
deriving DecidableEq

structure HaplogroupResult where
  maternal : String
  paternal : String
  details : HaploDetails
deriving DecidableEq

/-- The preferred mitochondrial genotype of a record in the lookup build:
`e.mother && e.mother !== \x27--\x27 ? e.mother : e.son1`. -/
def mtPreferred (e : GenotypeEntry) : String :=
  if e.mother != "" && e.mother != "--" then e.mother else e.son1

/-- The `mtEntries` position-to-genotype map of `estimateHaplogroups`:
for each `MT` record whose preferred genotype is truthy, `set` overwrites
the binding at the record\x27s position. -/
def buildMtLookup (entries : List GenotypeEntry) : Nat → Option String :=
  entries.foldl
    (fun mp e =>
      if e.chromosome == "MT" then
        if mtPreferred e != "" then
          fun p => if p == e.position then some (mtPreferred e) else mp p
        else mp
      else mp)
    (fun _ => none)

/-- Follows the claim\x27s words (C10), for comparison with the source\x27s
lookup: the mother\x27s genotype when non-empty, else son1\x27s, with no
exception for the literal `--` token. -/
def mtPreferredClaim (e : GenotypeEntry) : String :=
  if e.mother != "" then e.mother else e.son1

/-- The lookup the amended claim describes: for a position, the preferred
genotype of the last `MT` record at that position whose preferred genotype
is non-empty (later records overwrite earlier ones). -/
def lastPreferredLookup (entries : List GenotypeEntry) (pos : Nat) : Option String :=
  entries.foldl
    (fun acc e =>
      if e.chromosome == "MT" && e.position == pos && mtPreferred e != "" then
        some (mtPreferred e)
      else acc)
    none

/-- Leading-match test on character lists, for the model of JS
`String.prototype.includes`. -/
def isLeading : List Char → List Char → Bool
  | [], _ => true
  | _ :: _, [] => false
  | a :: as, b :: bs => a == b && isLeading as bs

def hasSubChars (needle : List Char) : List Char → Bool
  | [] => needle.isEmpty
  | b :: t => isLeading needle (b :: t) || hasSubChars needle t

/-- JS `s.includes(sub)`: substring containment. -/
def jsIncludes (s sub : String) : Bool := hasSubChars sub.data s.data

/-- The per-rule marker loop of `estimateHaplogroups`: for each marker whose
position has a truthy genotype in the lookup, count it tested, and matched
when the genotype contains the expected allele as a substring. Returns
(matches, total). -/
def markerStep (lk : Nat → Option String) (mt : Nat × Nat) (mk : Marker) :
    Nat × Nat :=
  match lk mk.position with
  | some v =>
      if v.length == 0 then mt
      else ((if jsIncludes v mk.allele then mt.1 + 1 else mt.1), mt.2 + 1)
  | none => mt

def countMarkers (lk : Nat → Option String) (markers : List Marker) : Nat × Nat :=
  markers.foldl (markerStep lk) (0, 0)

def ruleMatched (lk : Nat → Option String) (r : HaplogroupRule) : Nat :=
  (countMarkers lk r.markers).1

def ruleTested (lk : Nat → Option String) (r : HaplogroupRule) : Nat :=
  (countMarkers lk r.markers).2

/-- `(matches / total) * 100` over the rationals (only consulted by the
source when `total > 0`). -/
def rulePct (lk : Nat → Option String) (r : HaplogroupRule) : ℚ :=
  (ruleMatched lk r : ℚ) / (ruleTested lk r : ℚ) * 100

/-- `score = matches * 100 + percentage`. -/
def ruleScore (lk : Nat → Option String) (r : HaplogroupRule) : ℚ :=
  (ruleMatched lk r : ℚ) * 100 + rulePct lk r

structure BestMatch where
  haplogroup : String
  matched : Nat
  total : Nat
  percentage : ℚ
  description : String
deriving DecidableEq

def initBest : BestMatch := ⟨"Undetermined", 0, 0, 0, ""⟩

def bestScore (b : BestMatch) : ℚ := (b.matched : ℚ) * 100 + b.percentage

/-- The `BestMatch` record a rule produces when it wins. -/
def mkBest (lk : Nat → Option String) (r : HaplogroupRule) : BestMatch :=
  ⟨r.haplogroup, ruleMatched lk r, ruleTested lk r, rulePct lk r, r.description⟩

/-- The candidacy test for a rule: at least one tested marker and a match
percentage of at least 50. -/
def candB (lk : Nat → Option String) (r : HaplogroupRule) : Bool :=
  decide (0 < ruleTested lk r) && decide ((50 : ℚ) ≤ rulePct lk r)

/-- The body of the rule loop of `estimateHaplogroups`. -/
def stepRule (lk : Nat → Option String) (best : BestMatch) (r : HaplogroupRule) :
    BestMatch :=
  let mt := countMarkers lk r.markers
  if 0 < mt.2 then
    let percentage : ℚ := (mt.1 : ℚ) / (mt.2 : ℚ) * 100
    if 50 ≤ percentage then
      let score := (mt.1 : ℚ) * 100 + percentage
      let currentScore := (best.matched : ℚ) * 100 + best.percentage
      if currentScore < score then
        ⟨r.haplogroup, mt.1, mt.2, percentage, r.description⟩
      else best
    else best
  else best

def bestOf (lk : Nat → Option String) : BestMatch :=
  mtRules.foldl (stepRule lk) initBest

def estimateHaplogroups (entries : List GenotypeEntry) : HaplogroupResult :=
  { maternal :=
      if (bestOf (buildMtLookup entries)).haplogroup != "Undetermined" then
        (bestOf (buildMtLookup entries)).haplogroup
      else "Undetermined (Try external tool)"
    paternal := "Requires advanced Y-tree traversal (External Tool Recommended)"
    details :=
      ⟨(bestOf (buildMtLookup entries)).matched,
       (bestOf (buildMtLookup entries)).total,
       (bestOf (buildMtLookup entries)).percentage,
       (bestOf (buildMtLookup entries)).description⟩ }

/-! ## Theorems -/

/-- A record skipped by the genotype guards leaves the Mendelian loop
accumulator unchanged. -/
lemma mendelStep_skip (acc : Nat × Nat × List GenotypeEntry) (e : GenotypeEntry)
    (h : mendelSkip e = true) : mendelStep acc e = acc := by
  unfold mendelStep
  split_ifs with h1 h2 <;> first
    | rfl
    | (exfalso; simp only [mendelSkip, h1, h2, Bool.or_self, Bool.or_false,
        Bool.false_or] at h; exact absurd h (by simp [h1, h2]))

/-- C7: for every input sequence the Mendelian report satisfies
`totalChecked = consistentCount + inconsistentCount` (both counts are
naturals, hence non-negative), and a record that is skipped — excluded by
the autosomal filter or with no retained children checks — contributes to
neither count. -/
theorem mendelian_total_identity :
    (∀ entries, (analyzeMendelianConsistency entries).totalSNPs
        = (analyzeMendelianConsistency entries).consistent
          + (analyzeMendelianConsistency entries).inconsistent)
    ∧ (∀ (e : GenotypeEntry) entries,
        autosomalChrom e.chromosome = false ∨ mendelSkip e = true →
        analyzeMendelianConsistency (e :: entries) = analyzeMendelianConsistency entries) := by
  constructor
  · intro entries; rfl
  · intro e entries h
    unfold analyzeMendelianConsistency
    dsimp only
    rcases h with h | h
    · rw [List.filter_cons, if_neg (by simp [h])]
    · rw [List.filter_cons]
      by_cases ha : autosomalChrom e.chromosome = true
      · rw [if_pos ha, List.foldl_cons, mendelStep_skip _ _ h]
      · rw [if_neg ha]

/-- C4: the trio-consistency predicate on two-character genotypes holds
exactly when the child\x27s first allele comes from one parent and the second
from the other, in either assignment; concretely, with father `AG` and
mother `CT`, the children `AC` and `GT` are consistent and `CC` is not. -/
theorem trio_consistency_predicate :
    (∀ f0 f1 m0 m1 c0 c1 : Char,
        isConsistent ⟨[f0, f1]⟩ ⟨[m0, m1]⟩ ⟨[c0, c1]⟩ = true ↔
          (((c0 = f0 ∨ c0 = f1) ∧ (c1 = m0 ∨ c1 = m1)) ∨
           ((c0 = m0 ∨ c0 = m1) ∧ (c1 = f0 ∨ c1 = f1))))
    ∧ isConsistent "AG" "CT" "AC" = true
    ∧ isConsistent "AG" "CT" "GT" = true
    ∧ isConsistent "AG" "CT" "CC" = false := by
  refine ⟨?_, by decide, by decide, by decide⟩
  intro f0 f1 m0 m1 c0 c1
  simp [isConsistent, List.contains_cons]

/-- The mitochondrial loop body reads only mother, son1 and son2: two records
agreeing on those fields move equal match/mismatch counts to equal counts. -/
lemma mtStep_counts (acc acc2 : Nat × Nat × List GenotypeEntry)
    (e e2 : GenotypeEntry) (h1 : acc.1 = acc2.1) (h2 : acc.2.1 = acc2.2.1)
    (hm : e.mother = e2.mother) (hs1 : e.son1 = e2.son1) (hs2 : e.son2 = e2.son2) :
    (mtStep acc e).1 = (mtStep acc2 e2).1 ∧ (mtStep acc e).2.1 = (mtStep acc2 e2).2.1 := by
  unfold mtStep
  rw [hm, hs1, hs2]
  split_ifs <;> simp [h1, h2]

lemma mt_counts_father_free (f : GenotypeEntry → String) :
    ∀ (l : List GenotypeEntry) (acc acc2 : Nat × Nat × List GenotypeEntry),
      acc.1 = acc2.1 → acc.2.1 = acc2.2.1 →
      ((((l.map (setFather f)).filter fun e => e.chromosome == "MT").foldl mtStep acc).1
          = ((l.filter fun e => e.chromosome == "MT").foldl mtStep acc2).1)
      ∧ ((((l.map (setFather f)).filter fun e => e.chromosome == "MT").foldl mtStep acc).2.1
          = ((l.filter fun e => e.chromosome == "MT").foldl mtStep acc2).2.1) := by
  intro l
  induction l with
  | nil => intro acc acc2 h1 h2; exact ⟨h1, h2⟩
  | cons e t ih =>
    intro acc acc2 h1 h2
    have hchrom : (setFather f e).chromosome = e.chromosome := rfl
    rw [List.map_cons, List.filter_cons, List.filter_cons, hchrom]
    by_cases hc : (e.chromosome == "MT") = true
    · rw [if_pos hc, if_pos hc, List.foldl_cons, List.foldl_cons]
      exact ih _ _ (mtStep_counts acc acc2 (setFather f e) e h1 h2 rfl rfl rfl).1
        (mtStep_counts acc acc2 (setFather f e) e h1 h2 rfl rfl rfl).2
    · rw [if_neg hc, if_neg hc]
      exact ih _ _ h1 h2

/-- C6: a retained mitochondrial record counts as a match exactly when the
mother\x27s genotype equals both sons\x27 by string equality, and the match,
mismatch and total counts never consult the father field (replacing every
father genotype leaves them unchanged).  The `AG` vs `GA` example shows the
comparison is string identity, not allele-set equality. -/
theorem mito_exact_match_father_independent :
    (∀ (entries : List GenotypeEntry) (f : GenotypeEntry → String),
        (analyzeMitochondrial (entries.map (setFather f))).matchCount
            = (analyzeMitochondrial entries).matchCount
        ∧ (analyzeMitochondrial (entries.map (setFather f))).mismatches
            = (analyzeMitochondrial entries).mismatches
        ∧ (analyzeMitochondrial (entries.map (setFather f))).total
            = (analyzeMitochondrial entries).total)
    ∧ (∀ e : GenotypeEntry,
        (analyzeMitochondrial [e]).matchCount =
          if (e.chromosome == "MT"
                && !(e.mother.length == 0 || e.son1.length == 0 || e.son2.length == 0))
              && (e.mother == e.son1 && e.mother == e.son2) then 1 else 0)
    ∧ (analyzeMitochondrial [{ rsid := "rs", chromosome := "MT", position := 1, father := "", son1 := "A", son2 := "A", mother := "A" }]).matchCount = 1
    ∧ (analyzeMitochondrial [{ rsid := "rs", chromosome := "MT", position := 1, father := "", son1 := "G", son2 := "A", mother := "A" }]).mismatches = 1
    ∧ (analyzeMitochondrial [{ rsid := "rs", chromosome := "MT", position := 1, father := "", son1 := "GA", son2 := "AG", mother := "AG" }]).mismatches = 1 := by
  refine ⟨?_, ?_, by decide, by decide, by decide⟩
  · intro entries f
    have h := mt_counts_father_free f entries (0, 0, []) (0, 0, []) rfl rfl
    unfold analyzeMitochondrial
    dsimp only
    exact ⟨h.1, h.2, by rw [h.1, h.2]⟩
  · intro e
    unfold analyzeMitochondrial
    dsimp only
    rw [List.filter_cons]
    by_cases hc : (e.chromosome == "MT") = true
    · rw [if_pos hc, List.filter_nil, List.foldl_cons, List.foldl_nil]
      unfold mtStep
      by_cases h1 : (e.mother.length == 0 || e.son1.length == 0 ||
          e.son2.length == 0) = true
      · simp [h1, hc]
      · by_cases h3 : (e.mother == e.son1 && e.mother == e.son2) = true
        · simp [h1, h3, hc]
        · simp [h1, h3, hc]
    · rw [if_neg hc, List.filter_nil, List.foldl_nil]
      simp_all

/-- The sibling loop accumulates exactly half the IBS count of every
retained record. -/
lemma sib_fold : ∀ (l : List GenotypeEntry) (a : ℚ) (n : Nat),
    (l.foldl sibStep (a, n)).1
      = a + ((l.filter fun e => !sibSkip e).map
          (fun e => (sharedAlleles e.son1 e.son2 : ℚ))).sum / 2 := by
  intro l
  induction l with
  | nil => intro a n; simp
  | cons e t ih =>
    intro a n
    rw [List.foldl_cons, List.filter_cons]
    by_cases hs : sibSkip e = true
    · simp [sibStep, hs, ih a n]
    · have hs' : sibSkip e = false := by simpa using hs
      simp [sibStep, hs', ih]
      ring

/-- The sibling report of a single retained record. -/
lemma sib_singleton (e : GenotypeEntry) (ha : autosomalChrom e.chromosome = true)
    (hk : sibSkip e = false) :
    (analyzeSiblingSharing [e]).matchSum = (sharedAlleles e.son1 e.son2 : ℚ) / 2 := by
  unfold analyzeSiblingSharing
  dsimp only
  rw [List.filter_cons, if_pos ha, List.filter_nil, List.foldl_cons, List.foldl_nil]
  simp [sibStep, hk]

/-- C5: the sibling-sharing sum is the halved sum of the per-record
multiset-consumption IBS counts of the retained records, and the IBS count
takes the claimed values on the boundary cases (`AA`/`AA` ↦ 2, `AA`/`AG` ↦ 1
— not 2 —, `AA`/`GG` ↦ 0, `AG`/`GA` ↦ 2), each contributing its half to the
sum. -/
theorem sibling_ibs_contribution :
    (∀ entries, (analyzeSiblingSharing entries).matchSum
        = (((entries.filter fun e => autosomalChrom e.chromosome).filter
              fun e => !sibSkip e).map
            (fun e => (sharedAlleles e.son1 e.son2 : ℚ))).sum / 2)
    ∧ sharedAlleles "AA" "AA" = 2
    ∧ sharedAlleles "AA" "AG" = 1
    ∧ sharedAlleles "AA" "GG" = 0
    ∧ sharedAlleles "AG" "GA" = 2
    ∧ (analyzeSiblingSharing [{ rsid := "r", chromosome := "1", position := 1, father := "", son1 := "AA", son2 := "AA", mother := "" }]).matchSum = 1
    ∧ (analyzeSiblingSharing [{ rsid := "r", chromosome := "1", position := 1, father := "", son1 := "AA", son2 := "AG", mother := "" }]).matchSum = 1 / 2
    ∧ (analyzeSiblingSharing [{ rsid := "r", chromosome := "1", position := 1, father := "", son1 := "AA", son2 := "GG", mother := "" }]).matchSum = 0
    ∧ (analyzeSiblingSharing [{ rsid := "r", chromosome := "1", position := 1, father := "", son1 := "AG", son2 := "GA", mother := "" }]).matchSum = 1 := by
  refine ⟨?_, by decide, by decide, by decide, by decide, ?_, ?_, ?_, ?_⟩
  · intro entries
    unfold analyzeSiblingSharing
    dsimp only
    rw [sib_fold]
    simp
  · rw [sib_singleton _ (by decide) (by decide)]
    norm_num [show sharedAlleles "AA" "AA" = 2 from by decide]
  · rw [sib_singleton _ (by decide) (by decide)]
    norm_num [show sharedAlleles "AA" "AG" = 1 from by decide]
  · rw [sib_singleton _ (by decide) (by decide)]
    norm_num [show sharedAlleles "AA" "GG" = 0 from by decide]
  · rw [sib_singleton _ (by decide) (by decide)]
    norm_num [show sharedAlleles "AG" "GA" = 2 from by decide]

/-- Sorting a two-character list. -/
lemma sortChars_pair (x y : Char) :
    sortChars [x, y] = if x ≤ y then [x, y] else [y, x] := by
  simp [sortChars, insertSorted]

/-- The consumption match on two-element lists is symmetric. -/
lemma sharedOfSorted_pair_comm (p q r s : Char) :
    sharedOfSorted [p, q] [r, s] = sharedOfSorted [r, s] [p, q] := by
  unfold sharedOfSorted consumeFirst
  by_cases h1 : p = r <;> by_cases h2 : p = s <;> by_cases h3 : q = r <;>
    by_cases h4 : q = s <;> by_cases h5 : r = s <;>
    simp_all [List.contains_cons, List.erase_cons, beq_iff_eq]
  all_goals try (intro h; simp_all)
  all_goals try (split_ifs <;> simp_all)
  all_goals rcases ‹_ ∨ _› with h | h <;> simp_all

lemma sortChars_pair_comm (a0 a1 b0 b1 : Char) :
    sharedOfSorted (sortChars [a0, a1]) (sortChars [b0, b1])
      = sharedOfSorted (sortChars [b0, b1]) (sortChars [a0, a1]) := by
  rw [sortChars_pair, sortChars_pair]
  split_ifs <;> apply sharedOfSorted_pair_comm

/-- On two-character genotypes the IBS count is symmetric in the two
siblings. -/
lemma sharedAlleles_comm (s t : String) (hs : s.length = 2) (ht : t.length = 2) :
    sharedAlleles t s = sharedAlleles s t := by
  obtain ⟨a0, a1, ha⟩ := List.length_eq_two.mp hs
  obtain ⟨b0, b1, hb⟩ := List.length_eq_two.mp ht
  unfold sharedAlleles
  rw [ha, hb]
  exact sortChars_pair_comm b0 b1 a0 a1

lemma sibSkip_swap (e : GenotypeEntry) : sibSkip (swapSons e) = sibSkip e := by
  simp only [sibSkip, swapSons]
  cases h1 : (e.son1.length == 0) <;> cases h2 : (e.son2.length == 0) <;>
    cases h3 : (e.son1.length != 2) <;> cases h4 : (e.son2.length != 2) <;>
    simp [h1, h2, h3, h4]

lemma sibStep_swap (acc : ℚ × Nat) (e : GenotypeEntry) :
    sibStep acc (swapSons e) = sibStep acc e := by
  unfold sibStep
  rw [sibSkip_swap]
  by_cases hs : sibSkip e = true
  · rw [if_pos hs, if_pos hs]
  · have hs' : sibSkip e = false := by simpa using hs
    have hlen : e.son1.length = 2 ∧ e.son2.length = 2 := by
      simp [sibSkip] at hs'
      exact ⟨hs'.1.2, hs'.2⟩
    have hcomm := sharedAlleles_comm e.son1 e.son2 hlen.1 hlen.2
    rw [if_neg hs, if_neg hs]
    show (acc.1 + (sharedAlleles e.son2 e.son1 : ℚ) / 2, acc.2 + 1) = _
    rw [hcomm]

/-- C8: swapping the two siblings\x27 genotype fields in every record leaves
the whole sibling-sharing report (shared-allele sum, checked count and
percentage) unchanged. -/
theorem sibling_swap_invariant :
    ∀ entries, analyzeSiblingSharing (entries.map swapSons)
      = analyzeSiblingSharing entries := by
  intro entries
  unfold analyzeSiblingSharing
  dsimp only
  have hfil : (entries.map swapSons).filter (fun e => autosomalChrom e.chromosome)
      = (entries.filter fun e => autosomalChrom e.chromosome).map swapSons := by
    rw [List.filter_map]
    rfl
  rw [hfil, List.foldl_map]
  have hstep : (fun (acc : ℚ × Nat) e => sibStep acc (swapSons e)) = sibStep :=
    funext fun acc => funext fun e => sibStep_swap acc e
  rw [hstep]

/-- C2 (amended): both analyses retain a record exactly when its chromosome
label passes the shared filter — not in `X`/`Y`/`MT` and accepted by JS
`parseInt` — and its genotype guards pass.  The `parseInt` acceptance is
broader than "parses as an unsigned decimal integer": a label with trailing
non-digit characters (`1a`) or a sign (`-5`) is retained; only labels with
no parseable integer prefix (`X`, `Y`, `MT`, `chr1`, the empty string) are
excluded. -/
theorem autosomal_filter_amended :
    (∀ e : GenotypeEntry,
        (analyzeMendelianConsistency [e]).totalSNPs
          = if autosomalChrom e.chromosome && !mendelSkip e then 1 else 0)
    ∧ (∀ e : GenotypeEntry,
        (analyzeSiblingSharing [e]).totalSNPs
          = if autosomalChrom e.chromosome && !sibSkip e then 1 else 0)
    ∧ autosomalChrom "X" = false ∧ autosomalChrom "Y" = false
    ∧ autosomalChrom "MT" = false ∧ autosomalChrom "chr1" = false
    ∧ autosomalChrom "" = false ∧ autosomalChrom "12" = true
    ∧ autosomalChrom "1a" = true ∧ autosomalChrom "-5" = true := by
  refine ⟨?_, ?_, by decide, by decide, by decide, by decide, by decide,
    by decide, by decide, by decide⟩
  · intro e
    unfold analyzeMendelianConsistency
    dsimp only
    rw [List.filter_cons, List.filter_nil]
    by_cases ha : autosomalChrom e.chromosome = true
    · rw [if_pos ha, List.foldl_cons, List.foldl_nil]
      unfold mendelStep
      split_ifs <;> simp_all [mendelSkip]
    · have ha' : autosomalChrom e.chromosome = false := by simpa using ha
      rw [if_neg ha, List.foldl_nil]
      simp [ha']
  · intro e
    unfold analyzeSiblingSharing
    dsimp only
    rw [List.filter_cons, List.filter_nil]
    by_cases ha : autosomalChrom e.chromosome = true
    · rw [if_pos ha, List.foldl_cons, List.foldl_nil]
      unfold sibStep
      split_ifs <;> simp_all
    · have ha' : autosomalChrom e.chromosome = false := by simpa using ha
      rw [if_neg ha, List.foldl_nil]
      simp [ha']

/-- C2 (counterexample): the chromosome label `1a` does not consist of
decimal digits, yet a record carrying it is retained by both the Mendelian
and the sibling analyses (`parseInt("1a")` is `1`, not `NaN`). -/
theorem autosomal_filter_counterexample :
    ("1a".data.all Char.isDigit = false)
    ∧ (analyzeMendelianConsistency
        [{ rsid := "rs1", chromosome := "1a", position := 5, father := "AA", son1 := "AA", son2 := "AA", mother := "AA" }]).totalSNPs = 1
    ∧ (analyzeSiblingSharing
        [{ rsid := "rs1", chromosome := "1a", position := 5, father := "AA", son1 := "AA", son2 := "AA", mother := "AA" }]).totalSNPs = 1 := by
  refine ⟨by decide, by decide, by decide⟩

/-- Unrolling the lookup-building fold of `estimateHaplogroups` at a fixed
position: it is the last-match fold of `lastPreferredLookup`. -/
lemma mt_lookup_fold : ∀ (l : List GenotypeEntry) (mp : Nat → Option String)
    (pos : Nat),
    l.foldl
      (fun mp e =>
        if e.chromosome == "MT" then
          if mtPreferred e != "" then
            fun p => if p == e.position then some (mtPreferred e) else mp p
          else mp
        else mp) mp pos
    = l.foldl
        (fun acc e =>
          if e.chromosome == "MT" && e.position == pos && mtPreferred e != "" then
            some (mtPreferred e)
          else acc) (mp pos) := by
  intro l
  induction l with
  | nil => intro mp pos; rfl
  | cons e t ih =>
    intro mp pos
    rw [List.foldl_cons, List.foldl_cons, ih]
    congr 1
    by_cases hc : (e.chromosome == "MT") = true
    · by_cases hp : (mtPreferred e != "") = true
      · by_cases hpos : pos = e.position
        · subst hpos
          simp [hc, hp]
        · have h2 : ¬ e.position = pos := fun h => hpos h.symm
          simp [hc, hp, hpos, h2]
      · have hp' : (mtPreferred e != "") = false := by simpa using hp
        simp [hc, hp']
    · have hc' : (e.chromosome == "MT") = false := by simpa using hc
      simp [hc']

/-- C10 (amended): for each position the haplogroup lookup holds the
preferred genotype — the mother\x27s when non-empty and distinct from the
literal `--`, else son1\x27s — of the last mitochondrial record at that
position whose preferred genotype is non-empty; later duplicates overwrite
earlier ones, as the concrete two-record example shows. -/
theorem mt_lookup_last_preferred :
    (∀ entries pos, buildMtLookup entries pos = lastPreferredLookup entries pos)
    ∧ buildMtLookup
        [{ rsid := "r1", chromosome := "MT", position := 7, father := "", son1 := "", son2 := "", mother := "A" }, { rsid := "r2", chromosome := "MT", position := 7, father := "", son1 := "", son2 := "", mother := "G" }] 7
      = some "G" := by
  refine ⟨?_, by decide⟩
  intro entries pos
  unfold buildMtLookup lastPreferredLookup
  exact mt_lookup_fold entries (fun _ => none) pos

/-- C10 (counterexample): on a mitochondrial record whose mother genotype is
the literal `--`, the claim\x27s preferred genotype is the non-empty `--`, yet
the source\x27s lookup stores son1\x27s `G` instead (the code treats `--` like a
missing mother call). -/
theorem mt_lookup_dashdash_counterexample :
    mtPreferredClaim { rsid := "r", chromosome := "MT", position := 100, father := "", son1 := "G", son2 := "G", mother := "--" } = "--"
    ∧ ("--" : String) ≠ ""
    ∧ buildMtLookup [{ rsid := "r", chromosome := "MT", position := 100, father := "", son1 := "G", son2 := "G", mother := "--" }] 100 = some "G"
    ∧ ("G" : String) ≠ "--" := by
  refine ⟨by decide, by decide, by decide, by decide⟩

/-- Along the rule loop, a best match with zero tested markers can only be
the initial one, whose percentage is zero. -/
lemma stepRule_total_pct : ∀ (rules : List HaplogroupRule)
    (lk : Nat → Option String) (acc : BestMatch),
    (acc.total = 0 → acc.percentage = 0) →
    ((rules.foldl (stepRule lk) acc).total = 0 →
      (rules.foldl (stepRule lk) acc).percentage = 0) := by
  intro rules
  induction rules with
  | nil => intro lk acc h; exact h
  | cons r t ih =>
    intro lk acc h
    rw [List.foldl_cons]
    apply ih
    unfold stepRule
    dsimp only
    split_ifs with h1 h2 h3
    · intro htot
      exact absurd htot (Nat.pos_iff_ne_zero.mp h1)
    · exact h
    · exact h
    · exact h

/-- C9: on the empty record sequence every analysis reports all-zero counts
and zero percentages, and the two percentage computations are guarded: a
zero denominator (zero checked records, zero tested markers) yields
percentage 0. -/
theorem analyses_zero_on_empty :
    analyzeMendelianConsistency [] = ⟨0, 0, 0, []⟩
    ∧ analyzeMitochondrial [] = ⟨0, 0, 0, []⟩
    ∧ analyzeSiblingSharing [] = ⟨0, 0, 0⟩
    ∧ (estimateHaplogroups []).details = ⟨0, 0, 0, ""⟩
    ∧ (∀ entries, (analyzeSiblingSharing entries).totalSNPs = 0 →
        (analyzeSiblingSharing entries).matchPercentage = 0)
    ∧ (∀ entries, (estimateHaplogroups entries).details.totalmarkers = 0 →
        (estimateHaplogroups entries).details.percentage = 0) := by
  refine ⟨rfl, rfl, rfl, by decide, ?_, ?_⟩
  · intro entries h
    unfold analyzeSiblingSharing at h ⊢
    dsimp only at h ⊢
    rw [h]
    simp
  · intro entries h
    unfold estimateHaplogroups bestOf at h ⊢
    dsimp only at h ⊢
    exact stepRule_total_pct mtRules (buildMtLookup entries) initBest
      (fun _ => rfl) h

/-! ### Haplogroup scoring lemmas -/

lemma bestScore_mkBest (lk : Nat → Option String) (r : HaplogroupRule) :
    bestScore (mkBest lk r) = ruleScore lk r := rfl

/-- The rule-loop body as a single guarded update: a rule replaces the best
match exactly when it is a candidate with a strictly greater score. -/
lemma stepRule_eq (lk : Nat → Option String) (b : BestMatch) (r : HaplogroupRule) :
    stepRule lk b r =
      if candB lk r && decide (bestScore b < ruleScore lk r) then mkBest lk r
      else b := by
  unfold stepRule candB mkBest ruleScore rulePct ruleMatched ruleTested bestScore
  dsimp only
  split_ifs <;> simp_all
  all_goals (exfalso; linarith)

lemma foldl_no_cand (lk : Nat → Option String) :
    ∀ (rules : List HaplogroupRule) (acc : BestMatch),
      (∀ r ∈ rules, candB lk r = false) →
      rules.foldl (stepRule lk) acc = acc := by
  intro rules
  induction rules with
  | nil => intro acc _; rfl
  | cons r t ih =>
    intro acc h
    have hr := h r (List.mem_cons_self r t)
    rw [List.foldl_cons, stepRule_eq, hr]
    simp only [Bool.false_and, Bool.false_eq_true, if_false]
    exact ih acc fun r2 hr2 => h r2 (List.mem_cons_of_mem _ hr2)

/-- C1 (amended): when no rule is a candidate — every rule has zero tested
markers or a match percentage below 50 — the classifier returns the
fallback maternal label `Undetermined (Try external tool)` with zero
matched and tested counts, zero percentage and an empty description. -/
theorem undetermined_when_no_candidate (entries : List GenotypeEntry)
    (h : ∀ r ∈ mtRules, ruleTested (buildMtLookup entries) r = 0 ∨
        rulePct (buildMtLookup entries) r < 50) :
    estimateHaplogroups entries =
      ⟨"Undetermined (Try external tool)",
       "Requires advanced Y-tree traversal (External Tool Recommended)",
       ⟨0, 0, 0, ""⟩⟩ := by
  have hc : ∀ r ∈ mtRules, candB (buildMtLookup entries) r = false := by
    intro r hr
    rcases h r hr with ht | hp
    · simp [candB, ht]
    · simp [candB, not_le.mpr hp]
  have hb : bestOf (buildMtLookup entries) = initBest :=
    foldl_no_cand _ mtRules initBest hc
  unfold estimateHaplogroups
  rw [hb]
  rfl

/-- Witness for the amended C1 at the empty record sequence (every rule has
zero tested markers there). -/
theorem undetermined_when_no_candidate_witness :
    estimateHaplogroups [] =
      ⟨"Undetermined (Try external tool)",
       "Requires advanced Y-tree traversal (External Tool Recommended)",
       ⟨0, 0, 0, ""⟩⟩ :=
  undetermined_when_no_candidate [] (by decide)

/-- C1 (counterexample): on the empty sequence no rule has a tested marker,
yet the returned maternal label is not the bare string `Undetermined`. -/
theorem undetermined_label_counterexample :
    (∀ r ∈ mtRules, ruleTested (buildMtLookup ([] : List GenotypeEntry)) r = 0)
    ∧ (estimateHaplogroups []).maternal ≠ "Undetermined" := by
  refine ⟨by decide, by decide⟩

lemma markerStep_le (lk : Nat → Option String) (p : Nat × Nat) (mk : Marker)
    (h : p.1 ≤ p.2) : (markerStep lk p mk).1 ≤ (markerStep lk p mk).2 := by
  unfold markerStep
  cases lk mk.position with
  | none => exact h
  | some v =>
    dsimp only
    split_ifs <;> first
      | exact h
      | (dsimp only; omega)

lemma countMarkers_fold_le (lk : Nat → Option String) :
    ∀ (ms : List Marker) (p : Nat × Nat), p.1 ≤ p.2 →
      (ms.foldl (markerStep lk) p).1 ≤ (ms.foldl (markerStep lk) p).2 := by
  intro ms
  induction ms with
  | nil => intro p h; exact h
  | cons mk t ih => intro p h; exact ih _ (markerStep_le lk p mk h)

/-- A rule never matches more markers than it tests. -/
lemma ruleMatched_le_tested (lk : Nat → Option String) (r : HaplogroupRule) :
    ruleMatched lk r ≤ ruleTested lk r :=
  countMarkers_fold_le lk r.markers (0, 0) le_rfl

lemma rulePct_nonneg (lk : Nat → Option String) (r : HaplogroupRule) :
    0 ≤ rulePct lk r := by
  unfold rulePct
  positivity

lemma rulePct_le_100 (lk : Nat → Option String) (r : HaplogroupRule) :
    rulePct lk r ≤ 100 := by
  unfold rulePct
  rcases Nat.eq_zero_or_pos (ruleTested lk r) with h | h
  · simp [h]
  · have hm : (ruleMatched lk r : ℚ) ≤ (ruleTested lk r : ℚ) := by
      exact_mod_cast ruleMatched_le_tested lk r
    have ht : (0 : ℚ) < (ruleTested lk r : ℚ) := by exact_mod_cast h
    have hd : (ruleMatched lk r : ℚ) / (ruleTested lk r : ℚ) ≤ 1 :=
      (div_le_one ht).mpr hm
    nlinarith

lemma candB_iff (lk : Nat → Option String) (r : HaplogroupRule) :
    candB lk r = true ↔ 0 < ruleTested lk r ∧ 50 ≤ rulePct lk r := by
  simp [candB]

lemma cand_score_pos (lk : Nat → Option String) (r : HaplogroupRule)
    (h : candB lk r = true) : 0 < ruleScore lk r := by
  obtain ⟨ht, hp⟩ := (candB_iff lk r).mp h
  unfold ruleScore
  have hn : (0 : ℚ) ≤ (ruleMatched lk r : ℚ) * 100 := by positivity
  linarith

lemma bestScore_initBest : bestScore initBest = 0 := by
  simp [bestScore, initBest]

/-- Full characterisation of the rule loop: the final best score dominates
the starting score and every candidate\x27s score, and the result is either
the untouched accumulator or the record of some candidate rule that beats
the accumulator and strictly beats every earlier candidate. -/
lemma bestFold_spec (lk : Nat → Option String) :
    ∀ (rules : List HaplogroupRule) (acc : BestMatch),
      bestScore acc ≤ bestScore (rules.foldl (stepRule lk) acc)
      ∧ (∀ r ∈ rules, candB lk r = true →
          ruleScore lk r ≤ bestScore (rules.foldl (stepRule lk) acc))
      ∧ (rules.foldl (stepRule lk) acc = acc
         ∨ ∃ l₁ r l₂, rules = l₁ ++ r :: l₂ ∧ candB lk r = true
            ∧ rules.foldl (stepRule lk) acc = mkBest lk r
            ∧ bestScore acc < ruleScore lk r
            ∧ (∀ r2 ∈ l₁, candB lk r2 = true →
                ruleScore lk r2 < ruleScore lk r)) := by
  intro rules
  induction rules with
  | nil =>
    intro acc
    exact ⟨le_rfl, by simp, Or.inl rfl⟩
  | cons r0 t ih =>
    intro acc
    rw [List.foldl_cons]
    by_cases hcase : candB lk r0 = true ∧ bestScore acc < ruleScore lk r0
    · have hstep : stepRule lk acc r0 = mkBest lk r0 := by
        rw [stepRule_eq]
        simp [hcase.1, hcase.2]
      rw [hstep]
      obtain ⟨ih1, ih2, ih3⟩ := ih (mkBest lk r0)
      have hsc : bestScore (mkBest lk r0) = ruleScore lk r0 := rfl
      refine ⟨?_, ?_, ?_⟩
      · exact le_trans (le_of_lt hcase.2) (le_trans hsc.ge ih1)
      · intro r hr hcand
        rcases List.mem_cons.mp hr with rfl | hr
        · exact le_trans hsc.ge ih1
        · exact ih2 r hr hcand
      · rcases ih3 with hres | ⟨l₁, rr, l₂, heq, hcand, hres, hlt, hall⟩
        · exact Or.inr ⟨[], r0, t, rfl, hcase.1, by rw [hres], hcase.2, by simp⟩
        · refine Or.inr ⟨r0 :: l₁, rr, l₂, by rw [heq, List.cons_append], hcand,
            hres, ?_, ?_⟩
          · exact lt_trans hcase.2 (lt_of_le_of_lt hsc.ge hlt)
          · intro r2 hr2 hc2
            rcases List.mem_cons.mp hr2 with rfl | hr2
            · exact lt_of_le_of_lt hsc.ge hlt
            · exact hall r2 hr2 hc2
    · have hstep : stepRule lk acc r0 = acc := by
        rw [stepRule_eq]
        rcases not_and_or.mp hcase with hc | hs
        · have hc2 : candB lk r0 = false := by simpa using hc
          simp [hc2]
        · simp [hs]
      rw [hstep]
      obtain ⟨ih1, ih2, ih3⟩ := ih acc
      have hnot : candB lk r0 = true → ¬ bestScore acc < ruleScore lk r0 := by
        intro hc
        rcases not_and_or.mp hcase with h | h
        · exact absurd hc h
        · exact h
      refine ⟨ih1, ?_, ?_⟩
      · intro r hr hcand
        rcases List.mem_cons.mp hr with rfl | hr
        · exact le_trans (not_lt.mp (hnot hcand)) ih1
        · exact ih2 r hr hcand
      · rcases ih3 with hres | ⟨l₁, rr, l₂, heq, hcand, hres, hlt, hall⟩
        · exact Or.inl hres
        · refine Or.inr ⟨r0 :: l₁, rr, l₂, by rw [heq, List.cons_append], hcand,
            hres, hlt, ?_⟩
          intro r2 hr2 hc2
          rcases List.mem_cons.mp hr2 with rfl | hr2
          · exact lt_of_le_of_lt (not_lt.mp (hnot hc2)) hlt
          · exact hall r2 hr2 hc2

/-- C3: among candidate rules (tested > 0 and percentage at least 50) the
classifier keeps the rule of highest `score = matched * 100 + percentage`;
the winner is a candidate whose score strictly beats every earlier-listed
candidate (so ties keep the earlier rule) and dominates every later one;
and between two candidates, strictly more matched markers always means a
strictly greater score, whatever the percentages. -/
theorem haplogroup_score_selection : ∀ entries : List GenotypeEntry,
    (∀ r ∈ mtRules, candB (buildMtLookup entries) r = true →
        ruleScore (buildMtLookup entries) r
          ≤ bestScore (bestOf (buildMtLookup entries)))
    ∧ ((∃ r ∈ mtRules, candB (buildMtLookup entries) r = true) →
        ∃ l₁ r l₂, mtRules = l₁ ++ r :: l₂
          ∧ candB (buildMtLookup entries) r = true
          ∧ bestOf (buildMtLookup entries) = mkBest (buildMtLookup entries) r
          ∧ (∀ r2 ∈ l₁, candB (buildMtLookup entries) r2 = true →
              ruleScore (buildMtLookup entries) r2
                < ruleScore (buildMtLookup entries) r)
          ∧ (∀ r2 ∈ l₂, candB (buildMtLookup entries) r2 = true →
              ruleScore (buildMtLookup entries) r2
                ≤ ruleScore (buildMtLookup entries) r))
    ∧ (∀ r r2, r ∈ mtRules → r2 ∈ mtRules →
        candB (buildMtLookup entries) r = true →
        candB (buildMtLookup entries) r2 = true →
        ruleMatched (buildMtLookup entries) r2
          < ruleMatched (buildMtLookup entries) r →
        ruleScore (buildMtLookup entries) r2
          < ruleScore (buildMtLookup entries) r) := by
  intro entries
  obtain ⟨h1, h2, h3⟩ := bestFold_spec (buildMtLookup entries) mtRules initBest
  have hbest : bestOf (buildMtLookup entries)
      = mtRules.foldl (stepRule (buildMtLookup entries)) initBest := rfl
  refine ⟨?_, ?_, ?_⟩
  · intro r hr hc
    rw [hbest]
    exact h2 r hr hc
  · rintro ⟨r, hr, hc⟩
    rcases h3 with hres | ⟨l₁, rr, l₂, heq, hcand, hres, hlt, hall⟩
    · exfalso
      have hle := h2 r hr hc
      rw [hres, bestScore_initBest] at hle
      exact absurd hle (not_le.mpr (cand_score_pos _ r hc))
    · refine ⟨l₁, rr, l₂, heq, hcand, by rw [hbest, hres], hall, ?_⟩
      intro r2 hr2 hc2
      have hmem : r2 ∈ mtRules := by
        rw [heq]
        exact List.mem_append_right _ (List.mem_cons_of_mem _ hr2)
      have hle := h2 r2 hmem hc2
      rw [hres] at hle
      exact le_trans hle (bestScore_mkBest _ rr).le
  · intro r r2 hr hr2 hc hc2 hm
    have h50 : (50 : ℚ) ≤ rulePct (buildMtLookup entries) r :=
      ((candB_iff _ r).mp hc).2
    have h100 : rulePct (buildMtLookup entries) r2 ≤ 100 :=
      rulePct_le_100 _ r2
    have hmm : (ruleMatched (buildMtLookup entries) r2 : ℚ) + 1
        ≤ (ruleMatched (buildMtLookup entries) r : ℚ) := by
      exact_mod_cast hm
    unfold ruleScore
    linarith

end Genome
